import Mathlib

/-!
Verification development for the sahajanand_sales file-ingestion pipeline.

The definitions below are shallow embeddings of the TypeScript source:
  - src/src/utils/fileParser.ts   (parseCSV, parseExcel, parseSpecificPDFFormat
                                   backfill step, validateSpecificPDFData)
  - src/src/types/index.ts        (parseCSV variant, getValueByHeader, getFirstMatch)
  - FileUpload component          (validateProducts, normalizeProduct, handleFiles
                                   per-file step)
  - AppContext reducers           (appReducer, ADD_PRODUCTS transition)

JavaScript objects with string keys are modelled as insertion-ordered
association lists (List (String x String)); property assignment is objSet,
which overwrites in place on key collision, matching JS object semantics.
JS string falsiness (undefined or empty string) is modelled explicitly.
Number(s) on decimal-literal strings is modelled by jsNumber : String -> Option Rat,
with none standing for NaN; parseFloat and parseInt take the longest numeric
prefix, as in JS. (Hex, exponent and Infinity forms, which the uploads at
hand never produce, are mapped to NaN by the model.)
-/

namespace SSales

/-- Insertion-ordered JS-object model: lookup of a property. -/
def jsGet (o : List (String × String)) (k : String) : Option String :=
  (o.find? (fun kv => kv.1 = k)).map (fun kv => kv.2)

/-- JS property assignment: overwrite in place if the key exists, else append. -/
def objSet (o : List (String × String)) (k v : String) : List (String × String) :=
  if o.any (fun kv => kv.1 = k) then
    o.map (fun kv => if kv.1 = k then (k, v) else kv)
  else o ++ [(k, v)]

/-- Substring containment on character lists, the semantics of JS
String.prototype.includes. -/
def listContainsSub (pat : List Char) : List Char → Bool
  | [] => pat.isEmpty
  | c :: t => pat.isPrefixOf (c :: t) || listContainsSub pat t

/-- JS s.includes(pat). -/
def strContains (s pat : String) : Bool :=
  listContainsSub pat.toList s.toList

/-- ASCII lower-casing of one character, the model of JS toLowerCase on the
ASCII inputs this pipeline handles. -/
def charLower (c : Char) : Char :=
  if 65 ≤ c.toNat && c.toNat ≤ 90 then Char.ofNat (c.toNat + 32) else c

/-- Model of JS s.toLowerCase(). -/
def jsToLower (s : String) : String :=
  String.mk (s.toList.map charLower)

/-- Model of JS s.trim(): strip leading and trailing whitespace. -/
def jsTrim (s : String) : String :=
  String.mk (((s.toList.dropWhile Char.isWhitespace).reverse.dropWhile
    Char.isWhitespace).reverse)

/-- Split a character list at every occurrence of a separator character. -/
def splitChar (sep : Char) : List Char → List (List Char)
  | [] => [[]]
  | c :: rest =>
    let r := splitChar sep rest
    if c = sep then [] :: r
    else
      match r with
      | [] => [c] :: []
      | h :: t => (c :: h) :: t

/-- Model of JS s.split(sep) for the single-character separators this
pipeline uses. -/
def jsSplitOn (s : String) (sep : Char) : List String :=
  (splitChar sep s.toList).map String.mk

/-- JS truthiness chain a || b || ... over possibly-absent strings:
undefined and the empty string are falsy. -/
def firstTruthy : List (Option String) → Option String
  | [] => none
  | none :: rest => firstTruthy rest
  | some s :: rest => if s = "" then firstTruthy rest else some s

/-- Numeric value of a list of decimal digits. -/
def digitsToNat (cs : List Char) : Nat :=
  cs.foldl (fun a c => a * 10 + (c.toNat - 48)) 0

/-- Decimal-literal body: digits, optionally a dot and more digits, with at
least one digit present. Returns none for any other shape (NaN in JS). -/
def parseDecBody (cs : List Char) : Option ℚ :=
  let intDigits := cs.takeWhile Char.isDigit
  let rest := cs.dropWhile Char.isDigit
  match rest with
  | [] => if intDigits.isEmpty then none else some (digitsToNat intDigits : ℚ)
  | '.' :: fracPart =>
      if fracPart.all Char.isDigit && !(intDigits.isEmpty && fracPart.isEmpty) then
        some (mkRat (digitsToNat (intDigits ++ fracPart)) (10 ^ fracPart.length))
      else none
  | _ => none

/-- Optional sign in front of a decimal-literal body. -/
def parseSigned (cs : List Char) : Option ℚ :=
  match cs with
  | '-' :: rest => (parseDecBody rest).map (fun q => -q)
  | '+' :: rest => parseDecBody rest
  | _ => parseDecBody cs

/-- Model of JS Number(s) on decimal-literal strings: surrounding whitespace
is trimmed and the empty string converts to 0; none stands for NaN. -/
def jsNumber (s : String) : Option ℚ :=
  let t := jsTrim s
  if t = "" then some 0 else parseSigned t.toList

/-- Longest numeric prefix, the body of JS parseFloat: digits, optionally a
dot and more digits; NaN (none) when no digit is found. -/
def floatPrefix (cs : List Char) : Option ℚ :=
  let intDigits := cs.takeWhile Char.isDigit
  let rest := cs.dropWhile Char.isDigit
  match rest with
  | '.' :: r2 =>
      let fracDigits := r2.takeWhile Char.isDigit
      if intDigits.isEmpty && fracDigits.isEmpty then none
      else some (mkRat (digitsToNat (intDigits ++ fracDigits)) (10 ^ fracDigits.length))
  | _ => if intDigits.isEmpty then none else some (digitsToNat intDigits : ℚ)

/-- Model of JS parseFloat: leading whitespace skipped, optional sign, then
the longest decimal prefix; none stands for NaN. -/
def jsParseFloat (s : String) : Option ℚ :=
  match (jsTrim s).toList with
  | '-' :: rest => (floatPrefix rest).map (fun q => -q)
  | '+' :: rest => floatPrefix rest
  | cs => floatPrefix cs

/-- Longest digit prefix, the body of JS parseInt in base 10. -/
def intPrefix (cs : List Char) : Option ℤ :=
  let ds := cs.takeWhile Char.isDigit
  if ds.isEmpty then none else some (digitsToNat ds : ℤ)

/-- Model of JS parseInt(s): leading whitespace skipped, optional sign, then
the longest digit prefix; none stands for NaN. -/
def jsParseInt (s : String) : Option ℤ :=
  match (jsTrim s).toList with
  | '-' :: rest => (intPrefix rest).map (fun n => -n)
  | '+' :: rest => intPrefix rest
  | cs => intPrefix cs

/-- The single-quote character. -/
def squote : Char := Char.ofNat 39

/-- The double-quote character. -/
def dquote : Char := Char.ofNat 34

/-- The regex replace of a leading and a trailing quote character in
fileParser.ts parseCSV header and cell cleanup. -/
def stripEdgeQuotes (s : String) : String :=
  let cs :=
    match s.toList with
    | c :: rest => if c = dquote || c = squote then rest else c :: rest
    | [] => []
  let cs2 :=
    match cs.getLast? with
    | some c => if c = dquote || c = squote then cs.dropLast else cs
    | none => cs
  String.mk cs2

/-- Cell cleanup in fileParser.ts parseCSV: trim, then strip edge quotes. -/
def trimStripQuotes (s : String) : String :=
  stripEdgeQuotes (jsTrim s)

/-- Delimiter detection of fileParser.ts parseCSV (lines 27 to 39): among
comma, semicolon and tab, keep the first candidate whose column count on the
first line strictly exceeds the best so far, starting from comma with 0. -/
def detectDelimiter (firstLine : String) : Char :=
  (([',', ';', '\t']).foldl
    (fun acc del =>
      let columns := (jsSplitOn firstLine del).length
      if columns > acc.2 then (del, columns) else acc)
    (',', 0)).1

/-- Row-object construction in fileParser.ts parseCSV: for each header with
its index, assign the value at that index when the header is truthy and the
value exists. -/
def buildProduct (headers values : List String) : List (String × String) :=
  headers.enum.foldl
    (fun product iv =>
      match iv with
      | (index, header) =>
        if header ≠ "" then
          match values.get? index with
          | some v => objSet product header v
          | none => product
        else product)
    []

/-- Embedding of parseCSV from src/src/utils/fileParser.ts (lines 22 to 72):
delimiter detection on the first non-empty line, quote-trimmed headers, rows
kept when their column count is at least half the header count and at least
one value is non-blank. -/
def parseCSV (content : String) : List (List (String × String)) :=
  let lines := (jsSplitOn content '\n').filter (fun line => jsTrim line ≠ "")
  if lines.length < 2 then []
  else
    let firstLine := lines.headD ""
    let delimiter := detectDelimiter firstLine
    let headers := (jsSplitOn firstLine delimiter).map trimStripQuotes
    (lines.drop 1).filterMap (fun line =>
      let values := (jsSplitOn line delimiter).map trimStripQuotes
      if headers.length ≤ 2 * values.length then
        let product := buildProduct headers values
        if product.any (fun kv => jsTrim kv.2 ≠ "") then some product else none
      else none)

/-- Embedding of getValueByHeader from src/src/types/index.ts (lines 154 to
162): for each candidate name in priority order, find the first header
containing it; accept only a truthy value at that index, else move to the
next candidate name. -/
def getValueByHeader (headers values : List String) : List String → Option String
  | [] => none
  | name :: rest =>
    match headers.findIdx? (fun h => strContains h name) with
    | some index =>
        match values.get? index with
        | some v => if v = "" then getValueByHeader headers values rest else some v
        | none => getValueByHeader headers values rest
    | none => getValueByHeader headers values rest

/-- Embedding of getFirstMatch from src/src/types/index.ts (lines 167 to
175): for each candidate key in priority order, find the first raw field
whose lower-cased name contains the key and return its trimmed value. -/
def getFirstMatch (row : List (String × String)) : List String → String
  | [] => ""
  | key :: rest =>
    match row.find? (fun kv => strContains (jsToLower kv.1) key) with
    | some kv => if kv.1 = "" then getFirstMatch row rest else jsTrim kv.2
    | none => getFirstMatch row rest

/-- Catalog entry, from the Product interface of src/src/types/index.ts.
JS number fields are Option Rat with none standing for NaN; optional
interface fields not consumed by any embedded operation are omitted. -/
structure Product where
  id : Option String := none
  productId : String := ""
  name : String := ""
  price : Option ℚ := none
  quantity : Option ℤ := none
  category : Option String := none
  description : Option String := none
  companyName : String := ""
  shopName : String := ""
  gst : Option ℚ := none
  fileSource : Option String := none
  sourceFile : Option String := none
  deriving Repr, DecidableEq

/-- Embedding of parseCSV from src/src/types/index.ts (lines 61 to 89): a
fixed comma delimiter, lower-cased headers, rows shorter than the header row
skipped, fields resolved through getValueByHeader with defaults. Date.now()
is passed in as the parameter now. -/
def parseCSVTypes (now : Nat) (content : String) : List Product :=
  let lines := (jsSplitOn content '\n').filter (fun line => jsTrim line ≠ "")
  if lines.length < 2 then []
  else
    let headers := (jsSplitOn (lines.headD "") ',').map (fun h => jsToLower (jsTrim h))
    (lines.drop 1).enum.filterMap (fun ji =>
      match ji with
      | (j, line) =>
        let i := j + 1
        let values := (jsSplitOn line ',').map (fun v => jsTrim v)
        if values.length < headers.length then none
        else some {
          id := some s!"{now}-{i}"
          productId := (getValueByHeader headers values
            ["productid", "product_id", "id"]).getD s!"PROD-{now}-{i}"
          name := (getValueByHeader headers values
            ["productname", "product_name", "name"]).getD "Unknown Product"
          quantity := jsParseInt ((getValueByHeader headers values
            ["quantity", "qty", "stock"]).getD "0")
          companyName := (getValueByHeader headers values
            ["companyname", "company_name", "company"]).getD "Unknown Company"
          shopName := (getValueByHeader headers values
            ["shopname", "shop_name", "shop"]).getD "Unknown Shop"
          price := jsParseFloat ((getValueByHeader headers values
            ["price", "amount", "cost"]).getD "0")
          category := getValueByHeader headers values ["category", "type"]
          gst := jsParseFloat ((getValueByHeader headers values
            ["gst", "tax"]).getD "0")
          description := getValueByHeader headers values ["description", "desc"] })

/-- A required canonical field with its accepted column names, from the
FileUpload component. -/
structure RequiredField where
  names : List String
  key : String
  deriving Repr, DecidableEq

/-- The requiredFields table of the FileUpload component (part_001 lines 18
to 25). -/
def requiredFields : List RequiredField :=
  [⟨["productid", "id", "product id"], "productId"⟩,
   ⟨["productname", "name", "product name"], "name"⟩,
   ⟨["quantity", "qty", "stock"], "quantity"⟩,
   ⟨["companyname", "company", "manufacturer"], "companyName"⟩,
   ⟨["shopname", "shop", "store"], "shopName"⟩,
   ⟨["price", "amount", "cost", "originalprice"], "price"⟩]

/-- Missing-required-field errors for one record (part_001 lines 38 to 45). -/
def missingFieldErrors (product : List (String × String)) (filename : String)
    (index : Nat) : List String :=
  requiredFields.filterMap (fun field =>
    if product.any (fun kv => field.names.contains (jsToLower kv.1)) then none
    else
      let first := field.names.headD ""
      some s!"{filename}, Row {index + 1}: Missing required field ({first})")

/-- Quantity type and range check for one record (part_001 lines 48 to 53):
non-numeric is an error, negative is a warning. -/
def quantityCheck (product : List (String × String)) (filename : String)
    (index : Nat) : List String × List String :=
  match firstTruthy [jsGet product "quantity", jsGet product "qty",
      jsGet product "stock"] with
  | none => ([], [])
  | some q =>
    match jsNumber q with
    | none => ([s!"{filename}, Row {index + 1}: Quantity must be a number (found: {q})"], [])
    | some n =>
      if n < 0 then ([], [s!"{filename}, Row {index + 1}: Quantity is negative"])
      else ([], [])

/-- Price type and range check for one record (part_001 lines 55 to 60):
non-numeric is an error, negative is a warning. -/
def priceCheck (product : List (String × String)) (filename : String)
    (index : Nat) : List String × List String :=
  match firstTruthy [jsGet product "price", jsGet product "amount",
      jsGet product "cost", jsGet product "originalprice"] with
  | none => ([], [])
  | some p =>
    match jsNumber p with
    | none => ([s!"{filename}, Row {index + 1}: Price must be a number (found: {p})"], [])
    | some n =>
      if n < 0 then ([], [s!"{filename}, Row {index + 1}: Price is negative"])
      else ([], [])

/-- Empty-value check on the product id (part_001 lines 63 to 66). -/
def idCheck (product : List (String × String)) (filename : String)
    (index : Nat) : List String :=
  match firstTruthy [jsGet product "productId", jsGet product "id"] with
  | none => [s!"{filename}, Row {index + 1}: Product ID cannot be empty"]
  | some s =>
    if jsTrim s = "" then [s!"{filename}, Row {index + 1}: Product ID cannot be empty"]
    else []

/-- Empty-value check on the product name (part_001 lines 68 to 71). -/
def nameCheck (product : List (String × String)) (filename : String)
    (index : Nat) : List String :=
  match firstTruthy [jsGet product "productName", jsGet product "name"] with
  | none => [s!"{filename}, Row {index + 1}: Product Name cannot be empty"]
  | some s =>
    if jsTrim s = "" then [s!"{filename}, Row {index + 1}: Product Name cannot be empty"]
    else []

/-- All checks of the validateProducts loop body for one record, in source
order: missing fields, quantity, price, id, name. -/
def rowValidate (product : List (String × String)) (filename : String)
    (index : Nat) : List String × List String :=
  let qc := quantityCheck product filename index
  let pc := priceCheck product filename index
  (missingFieldErrors product filename index ++ qc.1 ++ pc.1 ++
    idCheck product filename index ++ nameCheck product filename index,
   qc.2 ++ pc.2)

/-- Embedding of validateProducts from the FileUpload component (part_001
lines 27 to 75): an empty file is a single error, otherwise errors and
warnings are accumulated across all records without halting. -/
def validateProducts (products : List (List (String × String)))
    (filename : String) : List String × List String :=
  if products.length = 0 then ([s!"{filename}: File is empty"], [])
  else
    products.enum.foldl (fun acc ip =>
      match ip with
      | (index, product) =>
        let ew := rowValidate product filename index
        (acc.1 ++ ew.1, acc.2 ++ ew.2)) ([], [])

/-- Embedding of normalizeProduct from the FileUpload component (part_001
lines 77 to 98): required fields are mapped to canonical keys first, then
every unmapped field is copied over. -/
def normalizeProduct (product : List (String × String)) : List (String × String) :=
  let mapped := requiredFields.foldl (fun normalized field =>
    match product.find? (fun kv => field.names.contains (jsToLower kv.1)) with
    | some kv => objSet normalized field.key kv.2
    | none => normalized) []
  product.foldl (fun normalized kv =>
    if requiredFields.any (fun f => f.names.contains (jsToLower kv.1)) then normalized
    else objSet normalized kv.1 kv.2) mapped

/-- The ADD_PRODUCTS transition of src/src/context/AppContext.tsx (lines 46
to 49), on the plain record objects that the FileUpload component actually
dispatches: append the payload records whose productId is not already in the
catalog. -/
def addProductsCtx (catalog payload : List (List (String × String))) :
    List (List (String × String)) :=
  let existingIds := catalog.map (fun p => jsGet p "productId")
  catalog ++ payload.filter (fun p => !(existingIds.contains (jsGet p "productId")))

/-- The per-file outcome of the upload flow. -/
structure UploadOutcome where
  catalog : List (List (String × String))
  success : Nat
  skipped : Nat
  errors : List String
  warnings : List String
  deriving Repr, DecidableEq

/-- Embedding of the per-file step of handleFiles from the FileUpload
component (part_001 lines 141 to 161), after parsing: validate, and on any
error skip the whole file; otherwise normalize, split off records whose id
is already in the catalog, and dispatch the remainder. -/
def processParsedFile (products : List (List (String × String)))
    (filename : String) (catalog : List (List (String × String))) : UploadOutcome :=
  let ew := validateProducts products filename
  if ew.1.length > 0 then ⟨catalog, 0, 0, ew.1, ew.2⟩
  else
    let normalizedProducts := products.map normalizeProduct
    let existingIds := catalog.map (fun p => jsGet p "productId")
    let newProducts := normalizedProducts.filter
      (fun p => !(existingIds.contains (jsGet p "productId")))
    let skippedCount := normalizedProducts.length - newProducts.length
    let catalog2 :=
      if newProducts.length > 0 then addProductsCtx catalog newProducts else catalog
    ⟨catalog2, newProducts.length, skippedCount, [], ew.2⟩

/-- Theme, from src/src/types/index.ts. -/
inductive Theme
  | light
  | dark
  deriving Repr, DecidableEq

/-- ViewMode, from src/src/types/index.ts. -/
inductive ViewMode
  | dashboard
  | search
  | upload
  | cart
  | bills
  | products
  | companies
  deriving Repr, DecidableEq

/-- Discount kind of a cart line, from src/src/types/index.ts. -/
inductive DiscountType
  | percentage
  | amount
  deriving Repr, DecidableEq

/-- CartItem, from src/src/types/index.ts. -/
structure CartItem where
  product : Product
  quantity : ℤ
  selectedShop : String
  discount : ℚ
  discountType : DiscountType
  deriving Repr, DecidableEq

/-- Bill, from src/src/types/index.ts; the JS Date is modelled as a
timestamp. -/
structure Bill where
  id : String
  items : List CartItem
  total : ℚ
  subtotal : ℚ
  totalDiscount : ℚ
  gst : ℚ
  gstAmount : ℚ
  finalAmount : ℚ
  customerName : Option String := none
  customerPhone : Option String := none
  date : Nat
  billNumber : String
  deriving Repr, DecidableEq

/-- User, from the AppContext of part_003. -/
structure User where
  id : String
  name : String
  shopName : String
  email : Option String := none
  deriving Repr, DecidableEq

/-- File-type filter of the AppContext of part_003. -/
inductive FileTypeFilter
  | all
  | excel
  | pdf
  deriving Repr, DecidableEq

/-- AppState of the AppContext of part_003 (lines 11 to 24). -/
structure AppState where
  products : List Product
  cart : List CartItem
  bills : List Bill
  theme : Theme
  currentView : ViewMode
  searchTerm : String
  selectedCompany : Option String
  selectedShop : Option String
  user : Option User
  uploadedFiles : List String
  fileTypeFilter : FileTypeFilter
  deriving Repr, DecidableEq

/-- AppAction of the AppContext of part_003 (lines 26 to 44). -/
inductive AppAction
  | setProducts (payload : List Product)
  | addProducts (products : List Product) (fileName : Option String)
  | addToCart (payload : CartItem)
  | updateCartItem (index : Nat) (item : CartItem)
  | removeFromCart (payload : Nat)
  | clearCart
  | addBill (payload : Bill)
  | setTheme (payload : Theme)
  | setView (payload : ViewMode)
  | setSearchTerm (payload : String)
  | setSelectedCompany (payload : Option String)
  | setSelectedShop (payload : Option String)
  | updateProduct (payload : Product)
  | deleteProduct (payload : String)
  | setUser (payload : Option User)
  | setFileTypeFilter (payload : FileTypeFilter)
  | addUploadedFile (payload : String)
  | removeProductsByFile (payload : String)
  deriving Repr

/-- JS truthiness of an optional string: undefined and the empty string are
falsy. -/
def strTruthy : Option String → Bool
  | none => false
  | some s => s ≠ ""

/-- Embedding of appReducer from the AppContext of part_003 (lines 60 to
170). In ADD_PRODUCTS, records already in the catalog by productId are
dropped, survivors are stamped with the file name when one is given, and the
file name is recorded once in uploadedFiles. -/
def appReducer (state : AppState) : AppAction → AppState
  | .setProducts payload => { state with products := payload }
  | .addProducts payload fileName =>
    let existingIds := state.products.map (fun p => p.productId)
    let filtered := payload.filter (fun p => !(existingIds.contains p.productId))
    let newProducts :=
      if strTruthy fileName then
        filtered.map (fun product =>
          { product with fileSource := fileName, sourceFile := fileName })
      else filtered
    { state with
      products := state.products ++ newProducts,
      uploadedFiles :=
        match fileName with
        | some f =>
          if f ≠ "" && !(state.uploadedFiles.contains f) then
            state.uploadedFiles ++ [f]
          else state.uploadedFiles
        | none => state.uploadedFiles }
  | .addToCart payload => { state with cart := state.cart ++ [payload] }
  | .updateCartItem index item => { state with cart := state.cart.set index item }
  | .removeFromCart payload => { state with cart := state.cart.eraseIdx payload }
  | .clearCart => { state with cart := [] }
  | .addBill payload => { state with bills := state.bills ++ [payload] }
  | .setTheme payload => { state with theme := payload }
  | .setView payload => { state with currentView := payload }
  | .setSearchTerm payload => { state with searchTerm := payload }
  | .setSelectedCompany payload => { state with selectedCompany := payload }
  | .setSelectedShop payload => { state with selectedShop := payload }
  | .updateProduct payload =>
    { state with
      products := state.products.map (fun p =>
        if p.id = payload.id || p.productId = payload.productId then payload else p) }
  | .deleteProduct payload =>
    { state with
      products := state.products.filter (fun p =>
        p.id ≠ some payload && p.productId ≠ payload) }
  | .setUser payload => { state with user := payload }
  | .setFileTypeFilter payload => { state with fileTypeFilter := payload }
  | .addUploadedFile payload =>
    { state with
      uploadedFiles :=
        if state.uploadedFiles.contains payload then state.uploadedFiles
        else state.uploadedFiles ++ [payload] }
  | .removeProductsByFile payload =>
    { state with
      products := state.products.filter (fun p =>
        p.fileSource ≠ some payload && p.sourceFile ≠ some payload),
      uploadedFiles := state.uploadedFiles.filter (fun f => f ≠ payload),
      cart := state.cart.filter (fun item =>
        item.product.fileSource ≠ some payload &&
        item.product.sourceFile ≠ some payload) }

/-- Candidate record extracted by parseSpecificPDFFormat in
src/src/utils/fileParser.ts. JS number fields are Option Rat, absent fields
are none. -/
structure PDFRec where
  eCode : Option String := none
  description : Option String := none
  dcat : Option String := none
  sap : Option String := none
  stock : Option String := none
  price : Option ℚ := none
  minOrderQty : Option ℚ := none
  source : String := "PDF"
  filename : String := ""
  pageNumber : Nat := 0
  pattern : String := ""
  dcatSource : Option String := none
  deriving Repr, DecidableEq

/-- JS truthiness of an optional number: undefined, 0 and NaN are falsy; the
model excludes NaN from number-typed fields. -/
def numTruthy : Option ℚ → Bool
  | none => false
  | some q => q ≠ 0

/-- The open-circle stock glyph. -/
def stockGlyphOpen : String := "○"

/-- The filled-circle stock glyph. -/
def stockGlyphFilled : String := "●"

/-- An upper-case letter or a digit, the character class of the E-Code
regular expressions. -/
def isUpperOrDigit (c : Char) : Bool :=
  (65 ≤ c.toNat && c.toNat ≤ 90) || c.isDigit

/-- The test of the anchored regex requiring a leading upper-case
alphanumeric character. -/
def startsUpperAlnum (s : String) : Bool :=
  match s.toList with
  | [] => false
  | c :: _ => isUpperOrDigit c

/-- Rejection-level issues of one candidate record, in the order
validateSpecificPDFData (lines 403 to 424) pushes them: E-Code presence and
shape, DCAT numeric shape, price present and positive, minimum order
quantity a positive integer when present. -/
def pdfIssues (p : PDFRec) : List String :=
  let eCodeIssue :=
    match p.eCode with
    | none => ["Invalid or missing E-Code"]
    | some s => if s = "" || !startsUpperAlnum s then ["Invalid or missing E-Code"] else []
  let dcatIssue :=
    match p.dcat with
    | none => []
    | some s =>
      if s ≠ "" && !(s.toList.all Char.isDigit && s ≠ "") then ["DCAT should be numeric"]
      else []
  let priceIssue :=
    match p.price with
    | none => ["Invalid or missing price"]
    | some q => if q ≤ 0 then ["Invalid or missing price"] else []
  let moqIssue :=
    match p.minOrderQty with
    | none => []
    | some q =>
      if q ≠ 0 && (q.den ≠ 1 || q ≤ 0) then
        ["Minimum order quantity should be a positive integer"]
      else []
  eCodeIssue ++ dcatIssue ++ priceIssue ++ moqIssue

/-- The stock-format warning of validateSpecificPDFData (lines 427 to 429):
a truthy stock value that is neither recognized glyph nor numeric. -/
def stockWarning (filename : String) (p : PDFRec) (index : Nat) : List String :=
  match p.stock with
  | none => []
  | some s =>
    if s ≠ "" && !(s = stockGlyphOpen || s = stockGlyphFilled) && (jsNumber s).isNone then
      [s!"{filename}, Page {p.pageNumber}, Row {index + 1}: Stock format unusual ({s})"]
    else []

/-- A rejected record with its issues and row index, as
validateSpecificPDFData stores it in the invalid set. -/
structure InvalidPDF where
  base : PDFRec
  issues : List String
  row : Nat
  deriving Repr, DecidableEq

/-- A normalized valid record, as validateSpecificPDFData builds it (lines
436 to 443): canonical id from the E-Code, name from the description or the
E-Code, category from the DCAT, fixed vendor placeholders. -/
structure NormalizedPDF where
  base : PDFRec
  productId : Option String
  name : Option String
  category : String
  companyName : String
  shopName : String
  deriving Repr, DecidableEq

/-- Normalization of a record with no rejection-level issues. -/
def normalizePDF (p : PDFRec) : NormalizedPDF :=
  { base := p
    productId := p.eCode
    name := firstTruthy [p.description, p.eCode]
    category := match p.dcat with
      | none => "Uncategorized"
      | some s => if s = "" then "Uncategorized" else "DCAT-" ++ s
    companyName := "Dormer Pramet"
    shopName := "Default Shop" }

/-- The forEach loop of validateSpecificPDFData, indexed from the given
position: each record contributes its stock warning, then lands in the valid
or the invalid set without halting the rest. -/
def validatePDFGo (filename : String) : Nat → List PDFRec →
    List NormalizedPDF × List InvalidPDF × List String
  | _, [] => ([], [], [])
  | index, p :: rest =>
    let issues := pdfIssues p
    let stockW := stockWarning filename p index
    let next := validatePDFGo filename (index + 1) rest
    if issues.length > 0 then
      let joined := String.intercalate ", " issues
      (next.1, ⟨p, issues, index + 1⟩ :: next.2.1,
        stockW ++ [s!"{filename}, Page {p.pageNumber}, Row {index + 1}: {joined}"] ++ next.2.2)
    else
      (normalizePDF p :: next.1, next.2.1, stockW ++ next.2.2)

/-- Embedding of validateSpecificPDFData from src/src/utils/fileParser.ts
(lines 394 to 449). -/
def validateSpecificPDFData (products : List PDFRec) (filename : String) :
    List NormalizedPDF × List InvalidPDF × List String :=
  validatePDFGo filename 0 products

/-- The per-record update of the contextual DCAT backfill
(src/src/utils/fileParser.ts lines 380 to 386): a record lacking a truthy
dcat on the current page receives the value and a provenance note. -/
def backfillUpd (pageNumber : Nat) (n : String) (product : PDFRec) : PDFRec :=
  if !strTruthy product.dcat && product.pageNumber == pageNumber then
    { product with dcat := some n, dcatSource := some "Page header/footer" }
  else product

/-- Embedding of the backfill step of parseSpecificPDFFormat (lines 377 to
387): the slice of the last five extracted records is updated in place, all
earlier records are untouched. -/
def applyDcatBackfill (products : List PDFRec) (pageNumber : Nat) (n : String) :
    List PDFRec :=
  products.take (products.length - 5) ++
    (products.drop (products.length - 5)).map (backfillUpd pageNumber n)

/-- Row-object construction of parseExcel in src/src/utils/fileParser.ts
(lines 125 to 145): assign each truthy header the trimmed cell at its index
when that cell exists and is non-empty. Cell values are modelled as the
strings produced by the sheet decode. -/
def buildExcelRow (headers row : List String) : List (String × String) :=
  headers.enum.foldl (fun product ih =>
    match ih with
    | (index, header) =>
      if header ≠ "" then
        match row.get? index with
        | some v => if v = "" then product else objSet product header (jsTrim v)
        | none => product
      else product) []

/-- Per-sheet processing of parseExcel (lines 94 to 155): needs a header row
with a non-blank cell, skips rows with no non-blank cell, and tags each
produced record with the sheet name when the workbook holds more than one
sheet. -/
def parseExcelSheet (sheetCount : Nat) (sheetName : String)
    (rows : List (List String)) : List (List (String × String)) :=
  if rows.length < 2 then []
  else
    let headers := (rows.headD []).map (fun h => jsToLower (jsTrim h))
    if !headers.any (fun h => h ≠ "") then []
    else
      (rows.drop 1).filterMap (fun row =>
        if !row.any (fun cell => cell ≠ "") then none
        else
          let product := buildExcelRow headers row
          if product ≠ [] then
            some (if sheetCount > 1 then objSet product "_sheet" sheetName else product)
          else none)

/-- Embedding of parseExcel from src/src/utils/fileParser.ts (lines 75 to
166): iterate the first three sheets of the workbook, concatenating their
records; the more-than-one-sheet tag test uses the full workbook sheet
count. -/
def parseExcelWb (workbook : List (String × List (List String))) :
    List (List (String × String)) :=
  (workbook.take 3).foldl (fun allProducts sheet =>
    allProducts ++ parseExcelSheet workbook.length sheet.1 sheet.2) []

/-- The initial application state of the AppContext of part_003 (lines 46 to
58). -/
def initialState : AppState :=
  { products := [], cart := [], bills := [], theme := .light,
    currentView := .dashboard, searchTerm := "", selectedCompany := none,
    selectedShop := none, user := none, uploadedFiles := [],
    fileTypeFilter := .all }

theorem jsGet_objSet_self (o : List (String × String)) (k v : String) :
    jsGet (objSet o k v) k = some v := by
  unfold objSet
  split
  · next h =>
    induction o with
    | nil => simp at h
    | cons kv rest ih =>
      by_cases hk : kv.1 = k
      · simp [jsGet, List.find?, hk]
      · simp only [List.any_cons, Bool.or_eq_true] at h
        rcases h with h | h
        · exact absurd (by simpa using h) hk
        · simpa [jsGet, List.find?, hk] using ih h
  · induction o with
    | nil => simp [jsGet, List.find?]
    | cons kv rest ih =>
      next h =>
      simp only [List.any_cons, Bool.or_eq_true, not_or] at h
      have hk : ¬ kv.1 = k := by simpa using h.1
      simpa [jsGet, List.find?, hk] using ih (by simpa using h.2)

theorem jsGet_map_replace (o : List (String × String)) (k k2 v : String)
    (h : k ≠ k2) :
    jsGet (o.map (fun kv => if kv.1 = k2 then (k2, v) else kv)) k = jsGet o k := by
  induction o with
  | nil => rfl
  | cons kv rest ih =>
    obtain ⟨k1, v1⟩ := kv
    simp only [jsGet, List.find?_map] at ih ⊢
    by_cases hk : k1 = k2
    · simp [List.find?_cons, List.find?_map, hk, Ne.symm h, ih]
    · by_cases hkk : k1 = k
      · simp [List.find?_cons, List.find?_map, hk, hkk, h]
      · simp [List.find?_cons, List.find?_map, hk, hkk, ih]

theorem jsGet_objSet_other (o : List (String × String)) (k k2 v : String)
    (h : k ≠ k2) : jsGet (objSet o k2 v) k = jsGet o k := by
  unfold objSet
  split
  · exact jsGet_map_replace o k k2 v h
  · have hne : ¬ ((k2, v).1 = k) := by simpa using Ne.symm h
    simp [jsGet, List.find?_append, List.find?, hne]

/-- C10: the ADD_PRODUCTS transition leaves the cart, bills, theme, current
view, search term, selected company, selected shop, user and file-type
filter of the state unchanged; only the product collection and the uploaded
file list can change. -/
theorem addProducts_frame (s : AppState) (payload : List Product)
    (fileName : Option String) :
    (appReducer s (.addProducts payload fileName)).cart = s.cart ∧
    (appReducer s (.addProducts payload fileName)).bills = s.bills ∧
    (appReducer s (.addProducts payload fileName)).theme = s.theme ∧
    (appReducer s (.addProducts payload fileName)).currentView = s.currentView ∧
    (appReducer s (.addProducts payload fileName)).searchTerm = s.searchTerm ∧
    (appReducer s (.addProducts payload fileName)).selectedCompany = s.selectedCompany ∧
    (appReducer s (.addProducts payload fileName)).selectedShop = s.selectedShop ∧
    (appReducer s (.addProducts payload fileName)).user = s.user ∧
    (appReducer s (.addProducts payload fileName)).fileTypeFilter = s.fileTypeFilter :=
  ⟨rfl, rfl, rfl, rfl, rfl, rfl, rfl, rfl, rfl⟩

/-- C1 does not hold as stated: merging a batch that itself contains two
records with productId A into the empty catalog leaves two catalog entries
with the same productId, because ADD_PRODUCTS deduplicates only against the
existing catalog. -/
theorem addProducts_batchdup_counterexample :
    ((appReducer initialState
        (.addProducts [{ productId := "A" }, { productId := "A" }] none)).products.map
      Product.productId) = ["A", "A"] ∧
    ¬ ((appReducer initialState
        (.addProducts [{ productId := "A" }, { productId := "A" }] none)).products.map
      Product.productId).Nodup := by
  constructor
  · rfl
  · decide

/-- C1 amended: when the existing catalog has pairwise-distinct productIds
and the incoming batch also has pairwise-distinct productIds, the catalog
resulting from the ADD_PRODUCTS transition still has pairwise-distinct
productIds. -/
theorem addProducts_nodup (s : AppState) (payload : List Product)
    (fileName : Option String)
    (hcat : (s.products.map Product.productId).Nodup)
    (hbatch : (payload.map Product.productId).Nodup) :
    ((appReducer s (.addProducts payload fileName)).products.map
      Product.productId).Nodup := by
  have hpid :
      ((appReducer s (.addProducts payload fileName)).products.map Product.productId) =
      s.products.map Product.productId ++
        ((payload.filter (fun p =>
          !((s.products.map (fun q => q.productId)).contains p.productId))).map
          Product.productId) := by
    show ((s.products ++ _).map Product.productId) = _
    rw [List.map_append]
    congr 1
    split
    · rw [List.map_map]
      rfl
    · rfl
  rw [hpid, List.nodup_append]
  refine ⟨hcat, ?_, ?_⟩
  · exact hbatch.sublist ((List.filter_sublist _).map _)
  · intro a ha hb
    obtain ⟨p, hp, rfl⟩ := List.mem_map.mp hb
    have hpred := (List.mem_filter.mp hp).2
    have hnotmem : p.productId ∉ s.products.map (fun q => q.productId) := by
      simpa using hpred
    exact hnotmem (by simpa using ha)

/-- C3 does not hold as stated for document-sourced records: a candidate
record whose price is the number minus five is placed in the invalid set by
validateSpecificPDFData rather than accepted with a warning. -/
theorem negative_price_pdf_counterexample :
    (validateSpecificPDFData [{ eCode := some "A1", price := some (-5) }] "f.pdf").1 = [] ∧
    (validateSpecificPDFData [{ eCode := some "A1", price := some (-5) }] "f.pdf").2.1 =
      [⟨{ eCode := some "A1", price := some (-5) }, ["Invalid or missing price"], 1⟩] := by
  constructor <;> rfl

/-- C3 amended: in the spreadsheet validator a price that parses as a
negative number yields the negative-price warning and no error, while the
document validator rejects a record with a negative price. -/
theorem negative_price_split (product : List (String × String))
    (filename : String) (index : Nat) (s : String) (q : ℚ)
    (hs : firstTruthy [jsGet product "price", jsGet product "amount",
        jsGet product "cost", jsGet product "originalprice"] = some s)
    (hq : jsNumber s = some q) (hneg : q < 0) :
    priceCheck product filename index =
      ([], [s!"{filename}, Row {index + 1}: Price is negative"]) ∧
    pdfIssues { eCode := some "A1", price := some q } = ["Invalid or missing price"] := by
  constructor
  · unfold priceCheck
    rw [hs]
    simp [hq, hneg]
  · have h0 : q ≤ 0 := le_of_lt hneg
    have e2 : startsUpperAlnum "A1" = true := by decide
    simp [pdfIssues, e2, h0]

theorem jsNumber_neg5 : jsNumber "-5" = some (-5) := by
  with_unfolding_all exact rfl

/-- Witness for the amended C3 theorem at a concrete record with price
minus five. -/
theorem negative_price_split_witness :
    (firstTruthy [jsGet [("price", "-5")] "price", jsGet [("price", "-5")] "amount",
        jsGet [("price", "-5")] "cost", jsGet [("price", "-5")] "originalprice"] = some "-5" ∧
      jsNumber "-5" = some (-5) ∧ (-5 : ℚ) < 0) ∧
    priceCheck [("price", "-5")] "f.csv" 4 =
      ([], ["f.csv, Row 5: Price is negative"]) ∧
    pdfIssues { eCode := some "A1", price := some (-5) } = ["Invalid or missing price"] :=
  ⟨⟨by rfl, jsNumber_neg5, by norm_num⟩,
    negative_price_split [("price", "-5")] "f.csv" 4 "-5" (-5)
      (by rfl) jsNumber_neg5 (by norm_num)⟩

/-- C7: the DCAT backfill step changes nothing before the last five
extracted records; within the last five it updates exactly the records on
the current page lacking a truthy category, setting the category and a
page-context provenance note. -/
theorem backfill_scope (products : List PDFRec) (pageNumber : Nat) (n : String) :
    (applyDcatBackfill products pageNumber n).length = products.length ∧
    (applyDcatBackfill products pageNumber n).take (products.length - 5) =
      products.take (products.length - 5) ∧
    (applyDcatBackfill products pageNumber n).drop (products.length - 5) =
      (products.drop (products.length - 5)).map (backfillUpd pageNumber n) ∧
    (∀ p : PDFRec, (strTruthy p.dcat = true ∨ p.pageNumber ≠ pageNumber) →
      backfillUpd pageNumber n p = p) ∧
    (∀ p : PDFRec, strTruthy p.dcat = false → p.pageNumber = pageNumber →
      backfillUpd pageNumber n p =
        { p with dcat := some n, dcatSource := some "Page header/footer" }) := by
  have hlen : (products.take (products.length - 5)).length = products.length - 5 := by
    simp [List.length_take]
  refine ⟨?_, ?_, ?_, ?_, ?_⟩
  · unfold applyDcatBackfill
    simp [List.length_take, List.length_drop]
  · unfold applyDcatBackfill
    rw [List.take_left' hlen]
  · unfold applyDcatBackfill
    rw [List.drop_left' hlen]
  · intro p hp
    rcases hp with hp | hp
    · simp [backfillUpd, hp]
    · simp [backfillUpd, hp]
  · intro p h1 h2
    simp [backfillUpd, h1, h2]

/-- Witness for the C7 theorem at a concrete page: the sixth-from-last
record is untouched and a category-less record in the last five is updated
with the provenance note. -/
theorem backfill_scope_witness :
    backfillUpd 1 "7" { eCode := some "A", dcat := some "3", pageNumber := 1 } =
      { eCode := some "A", dcat := some "3", pageNumber := 1 } ∧
    backfillUpd 1 "7" { eCode := some "B", pageNumber := 1 } =
      { eCode := some "B", pageNumber := 1, dcat := some "7",
        dcatSource := some "Page header/footer" } :=
  ⟨(backfill_scope [] 1 "7").2.2.2.1
      { eCode := some "A", dcat := some "3", pageNumber := 1 } (Or.inl (by decide)),
    (backfill_scope [] 1 "7").2.2.2.2
      { eCode := some "B", pageNumber := 1 } (by decide) (by decide)⟩

/-- C5: the delimiter chosen by the Tabular Decoder is one of comma,
semicolon and tab, splits the first non-empty line into at least as many
columns as either alternative, and is comma whenever comma attains the
maximum; on the input a;b;c then 1;2;3 the decoder selects semicolon and
produces one record mapping a to 1, b to 2 and c to 3. -/
theorem delimiter_detection_c5 :
    (∀ line : String,
      detectDelimiter line ∈ [',', ';', '\t'] ∧
      (jsSplitOn line ',').length ≤ (jsSplitOn line (detectDelimiter line)).length ∧
      (jsSplitOn line ';').length ≤ (jsSplitOn line (detectDelimiter line)).length ∧
      (jsSplitOn line '\t').length ≤ (jsSplitOn line (detectDelimiter line)).length ∧
      (((jsSplitOn line ';').length ≤ (jsSplitOn line ',').length ∧
        (jsSplitOn line '\t').length ≤ (jsSplitOn line ',').length) →
        detectDelimiter line = ',')) ∧
    parseCSV "a;b;c\n1;2;3" = [[("a", "1"), ("b", "2"), ("c", "3")]] := by
  constructor
  · intro line
    unfold detectDelimiter
    simp only [List.foldl]
    set nc := (jsSplitOn line ',').length with hnc
    set ns := (jsSplitOn line ';').length with hns
    set nt := (jsSplitOn line '\t').length with hnt
    split_ifs <;> dsimp only <;>
      refine ⟨by simp, by omega, by omega, by omega, fun hcomma => ?_⟩ <;>
      first
        | rfl
        | exact absurd hcomma.1 (by omega)
  · decide

/-- Witness for the general conjunct of the C5 theorem at a line where all
three candidate delimiters tie, so comma is selected. -/
theorem delimiter_detection_c5_witness :
    ((jsSplitOn "x" ';').length ≤ (jsSplitOn "x" ',').length ∧
      (jsSplitOn "x" '\t').length ≤ (jsSplitOn "x" ',').length) ∧
    detectDelimiter "x" = ',' :=
  ⟨⟨by decide, by decide⟩,
    (delimiter_detection_c5.1 "x").2.2.2.2 ⟨by decide, by decide⟩⟩

/-- C6: a raw record holding both a Cost field and a Unit Price in INR
field resolves the canonical price to the Unit Price in INR value in either
field order, because the first alias, price, case-insensitively matches the
Unit Price in INR header and no earlier field. -/
theorem price_alias_resolution (v1 v2 : String) :
    getFirstMatch [("Cost", v1), ("Unit Price in INR", v2)]
      ["price", "amount", "cost"] = jsTrim v2 ∧
    getFirstMatch [("Unit Price in INR", v2), ("Cost", v1)]
      ["price", "amount", "cost"] = jsTrim v2 := by
  have h1 : strContains (jsToLower "Cost") "price" = false := by decide
  have h2 : strContains (jsToLower "Unit Price in INR") "price" = true := by decide
  have h3 : ("Unit Price in INR" : String) ≠ "" := by decide
  constructor
  · simp [getFirstMatch, List.find?_cons, h1, h2, h3]
  · simp [getFirstMatch, List.find?_cons, h2, h3]

/-- C9: an input with fewer than two non-blank lines makes both CSV parser
variants return the empty record list without failing, and the upload flow
then reports the file as empty through a per-file error string, leaving the
catalog unchanged. -/
theorem empty_csv_yields_no_records (content : String) (now : Nat)
    (filename : String) (catalog : List (List (String × String)))
    (h : ((jsSplitOn content '\n').filter (fun line => jsTrim line ≠ "")).length < 2) :
    parseCSV content = [] ∧
    parseCSVTypes now content = [] ∧
    (validateProducts [] filename).1 = [filename ++ ": File is empty"] ∧
    processParsedFile (parseCSV content) filename catalog =
      ⟨catalog, 0, 0, [filename ++ ": File is empty"], []⟩ := by
  have hp : parseCSV content = [] := by
    unfold parseCSV
    simp only [if_pos h]
  have hq : parseCSVTypes now content = [] := by
    unfold parseCSVTypes
    simp only [if_pos h]
  refine ⟨hp, hq, rfl, ?_⟩
  rw [hp]
  rfl

/-- Witness for the C9 theorem on a one-line input. -/
theorem empty_csv_yields_no_records_witness :
    (((jsSplitOn "x" '\n').filter (fun line => jsTrim line ≠ "")).length < 2) ∧
    parseCSV "x" = [] ∧
    parseCSVTypes 0 "x" = [] ∧
    (validateProducts [] "f.csv").1 = ["f.csv" ++ ": File is empty"] ∧
    processParsedFile (parseCSV "x") "f.csv" [] =
      ⟨[], 0, 0, ["f.csv" ++ ": File is empty"], []⟩ :=
  ⟨by decide, empty_csv_yields_no_records "x" 0 "f.csv" [] (by decide)⟩

/-- C4: uploading a file whose records all validate and carry fresh,
pairwise-distinct productIds reports success N and skipped 0 and appends
exactly those records; uploading the identical records again against the
resulting catalog reports success 0 and skipped N and leaves the catalog
unchanged. -/
theorem reupload_idempotent (records : List (List (String × String)))
    (filename : String) (catalog : List (List (String × String)))
    (hval : (validateProducts records filename).1 = [])
    (hnodup : ((records.map normalizeProduct).map
      (fun p => jsGet p "productId")).Nodup)
    (hfresh : ∀ p ∈ records.map normalizeProduct,
      jsGet p "productId" ∉ catalog.map (fun q => jsGet q "productId")) :
    (processParsedFile records filename catalog).success = records.length ∧
    (processParsedFile records filename catalog).skipped = 0 ∧
    (processParsedFile records filename
        (processParsedFile records filename catalog).catalog).success = 0 ∧
    (processParsedFile records filename
        (processParsedFile records filename catalog).catalog).skipped = records.length ∧
    (processParsedFile records filename
        (processParsedFile records filename catalog).catalog).catalog =
      (processParsedFile records filename catalog).catalog := by
  have hne : records ≠ [] := by
    intro h0
    rw [h0] at hval
    simp [validateProducts] at hval
  have hfilter : (records.map normalizeProduct).filter
      (fun p => !((catalog.map (fun q => jsGet q "productId")).contains
        (jsGet p "productId"))) = records.map normalizeProduct := by
    apply List.filter_eq_self.mpr
    intro p hp
    simpa using hfresh p hp
  have hpos : (records.map normalizeProduct).length > 0 := by
    rw [List.length_map]
    exact List.length_pos.mpr hne
  have hA : processParsedFile records filename catalog =
      ⟨catalog ++ records.map normalizeProduct,
        (records.map normalizeProduct).length, 0, [],
        (validateProducts records filename).2⟩ := by
    unfold processParsedFile
    dsimp only
    simp only [hval, List.length_nil, gt_iff_lt, lt_self_iff_false, if_false]
    rw [hfilter]
    simp only [Nat.sub_self, if_pos hpos]
    unfold addProductsCtx
    dsimp only
    rw [hfilter]
  have hfilter2 : (records.map normalizeProduct).filter
      (fun p => !((((catalog ++ records.map normalizeProduct).map
        (fun q => jsGet q "productId")).contains (jsGet p "productId"))) ) = [] := by
    apply List.filter_eq_nil_iff.mpr
    intro p hp
    have hmem : jsGet p "productId" ∈
        (catalog ++ records.map normalizeProduct).map (fun q => jsGet q "productId") :=
      List.mem_map_of_mem _ (List.mem_append_right _ hp)
    have hc : ((catalog ++ records.map normalizeProduct).map
        (fun q => jsGet q "productId")).contains (jsGet p "productId") = true := by
      simpa using hmem
    intro hbad
    simp only [hc] at hbad
    simp at hbad
  have hB : processParsedFile records filename
      (catalog ++ records.map normalizeProduct) =
      ⟨catalog ++ records.map normalizeProduct, 0,
        (records.map normalizeProduct).length, [],
        (validateProducts records filename).2⟩ := by
    unfold processParsedFile
    dsimp only
    simp only [hval, List.length_nil, gt_iff_lt, lt_self_iff_false, if_false]
    rw [hfilter2]
    simp
  rw [hA]
  refine ⟨by simp, rfl, ?_, ?_, ?_⟩
  · rw [hB]
  · rw [hB]
    simp
  · rw [hB]

/-- Witness for the C4 theorem at a concrete one-record file uploaded twice
against an empty catalog. -/
theorem reupload_idempotent_witness :
    ((validateProducts [[("productId", "P1"), ("name", "W"), ("quantity", "5"),
        ("companyName", "A"), ("shopName", "M"), ("price", "9.99")]] "f.csv").1 = [] ∧
      (([[("productId", "P1"), ("name", "W"), ("quantity", "5"),
        ("companyName", "A"), ("shopName", "M"), ("price", "9.99")]].map
          normalizeProduct).map (fun p => jsGet p "productId")).Nodup) ∧
    (processParsedFile [[("productId", "P1"), ("name", "W"), ("quantity", "5"),
        ("companyName", "A"), ("shopName", "M"), ("price", "9.99")]] "f.csv" []).success = 1 ∧
    (processParsedFile [[("productId", "P1"), ("name", "W"), ("quantity", "5"),
        ("companyName", "A"), ("shopName", "M"), ("price", "9.99")]] "f.csv"
      (processParsedFile [[("productId", "P1"), ("name", "W"), ("quantity", "5"),
        ("companyName", "A"), ("shopName", "M"), ("price", "9.99")]] "f.csv" []).catalog).success = 0 := by
  have h := reupload_idempotent
    [[("productId", "P1"), ("name", "W"), ("quantity", "5"),
      ("companyName", "A"), ("shopName", "M"), ("price", "9.99")]] "f.csv" []
    (by decide) (by decide) (by decide)
  exact ⟨⟨by decide, by decide⟩, h.1, h.2.2.1⟩

/-- Witness for the amended C1 theorem at a concrete catalog and batch. -/
theorem addProducts_nodup_witness :
    (((initialState.products.map Product.productId).Nodup) ∧
      (([({ productId := "A" } : Product), { productId := "B" }].map
        Product.productId).Nodup)) ∧
    ((appReducer initialState
        (.addProducts [{ productId := "A" }, { productId := "B" }] (some "f.xlsx"))).products.map
      Product.productId).Nodup :=
  ⟨⟨by decide, by decide⟩,
    addProducts_nodup initialState [{ productId := "A" }, { productId := "B" }]
      (some "f.xlsx") (by decide) (by decide)⟩

theorem foldl_append_eq_join {α β : Type} (f : α → List β) :
    ∀ (l : List α) (init : List β),
      l.foldl (fun acc s => acc ++ f s) init = init ++ (l.map f).join := by
  intro l
  induction l with
  | nil => intro init; simp
  | cons a t ih => intro init; simp [ih]

theorem jsGet_excelFold_none (row : List String) (k : String) :
    ∀ (L : List (Nat × String)) (acc : List (String × String)),
      (∀ x ∈ L, x.2 ≠ k) → jsGet acc k = none →
      jsGet (L.foldl (fun product ih =>
        match ih with
        | (index, header) =>
          if header ≠ "" then
            match row.get? index with
            | some v => if v = "" then product else objSet product header (jsTrim v)
            | none => product
          else product) acc) k = none := by
  intro L
  induction L with
  | nil => intro acc _ hacc; exact hacc
  | cons x t ih =>
    intro acc hL hacc
    obtain ⟨i, h⟩ := x
    have hh : h ≠ k := hL (i, h) (List.mem_cons_self _ _)
    rw [List.foldl_cons]
    apply ih _ (fun y hy => hL y (List.mem_cons_of_mem _ hy))
    show jsGet (if h ≠ "" then
        (match row.get? i with
          | some v => if v = "" then acc else objSet acc h (jsTrim v)
          | none => acc)
        else acc) k = none
    by_cases h1 : h ≠ ""
    · rw [if_pos h1]
      cases hv : row.get? i with
      | none => exact hacc
      | some v =>
        show jsGet (if v = "" then acc else objSet acc h (jsTrim v)) k = none
        by_cases h2 : v = ""
        · rw [if_pos h2]; exact hacc
        · rw [if_neg h2]
          rw [jsGet_objSet_other _ _ _ _ (Ne.symm hh)]
          exact hacc
    · rw [if_neg h1]; exact hacc

theorem jsGet_buildExcelRow_of_notmem (headers row : List String) (k : String)
    (hk : k ∉ headers) : jsGet (buildExcelRow headers row) k = none := by
  unfold buildExcelRow
  apply jsGet_excelFold_none
  · intro x hx
    have hx2 : x.2 ∈ headers := by
      have := List.mem_map_of_mem Prod.snd hx
      rwa [List.enum_map_snd] at this
    intro heq
    exact hk (heq ▸ hx2)
  · rfl

theorem filterMap_some_shape (c1 c2 : Prop) [Decidable c1] [Decidable c2]
    (x rec : List (String × String))
    (h : (if c1 then none else if c2 then some x else none) = some rec) : rec = x := by
  split at h
  · simp at h
  · split at h
    · exact (Option.some_inj.mp h).symm
    · simp at h

/-- C8 does not hold as stated: in a two-sheet workbook whose second sheet
is empty, only one sheet yields data, yet the produced record is tagged with
its sheet name, because the tag condition counts the sheets in the workbook
rather than the sheets that yield data. -/
theorem sheet_tag_counterexample :
    parseExcelWb [("Sheet1", [["H"], ["v"]]), ("Sheet2", [])] =
      [[("h", "v"), ("_sheet", "Sheet1")]] ∧
    parseExcelSheet 2 "Sheet2" [] = [] := by
  exact ⟨by decide, by decide⟩

/-- C8 amended: a produced record is tagged with its originating sheet name
if and only if the workbook holds more than one sheet, whether or not the
other sheets yield any data; headers are assumed not to collide with the
tag field name. -/
theorem sheet_tag_iff_multisheet (wb : List (String × List (List String)))
    (hclean : ∀ sheet ∈ wb, ∀ hcell ∈ (sheet.2.headD ([] : List String)),
      jsToLower (jsTrim hcell) ≠ "_sheet") :
    (wb.length ≤ 1 → ∀ rec ∈ parseExcelWb wb, jsGet rec "_sheet" = none) ∧
    (1 < wb.length → ∀ rec ∈ parseExcelWb wb,
      ∃ sheet ∈ wb, jsGet rec "_sheet" = some sheet.1) := by
  have hdecomp : ∀ rec ∈ parseExcelWb wb, ∃ sheet ∈ wb.take 3,
      rec ∈ parseExcelSheet wb.length sheet.1 sheet.2 := by
    intro rec hrec
    unfold parseExcelWb at hrec
    rw [foldl_append_eq_join] at hrec
    simp only [List.nil_append, List.mem_join] at hrec
    obtain ⟨l, hl, hrecl⟩ := hrec
    rw [List.mem_map] at hl
    obtain ⟨sheet, hsheet, rfl⟩ := hl
    exact ⟨sheet, hsheet, hrecl⟩
  have hsheetrec : ∀ (name : String) (rows : List (List String))
      (rec : List (String × String)),
      rec ∈ parseExcelSheet wb.length name rows →
      (∀ hcell ∈ rows.headD ([] : List String), jsToLower (jsTrim hcell) ≠ "_sheet") →
      (wb.length ≤ 1 → jsGet rec "_sheet" = none) ∧
      (1 < wb.length → jsGet rec "_sheet" = some name) := by
    intro name rows rec hrec hclean1
    unfold parseExcelSheet at hrec
    split at hrec
    · exact absurd hrec (List.not_mem_nil rec)
    dsimp only at hrec
    by_cases hhead : (!((rows.headD ([] : List String)).map
        (fun h => jsToLower (jsTrim h))).any (fun h => decide (h ≠ ""))) = true
    · rw [if_pos hhead] at hrec
      exact absurd hrec (List.not_mem_nil rec)
    rw [if_neg hhead] at hrec
    rw [List.mem_filterMap] at hrec
    obtain ⟨row, hrow, heq⟩ := hrec
    have hshape := filterMap_some_shape _ _ _ rec heq
    have hnotmem : "_sheet" ∉ (rows.headD ([] : List String)).map
        (fun h => jsToLower (jsTrim h)) := by
      intro hmem
      rw [List.mem_map] at hmem
      obtain ⟨c, hc, hceq⟩ := hmem
      exact hclean1 c hc hceq
    constructor
    · intro hle
      have hng : ¬ (wb.length > 1) := by omega
      rw [hshape, if_neg hng]
      exact jsGet_buildExcelRow_of_notmem _ _ _ hnotmem
    · intro hgt
      rw [hshape, if_pos hgt]
      exact jsGet_objSet_self _ _ _
  constructor
  · intro hle rec hrec
    obtain ⟨sheet, hsheet, hrecs⟩ := hdecomp rec hrec
    have hs : sheet ∈ wb := List.mem_of_mem_take hsheet
    exact (hsheetrec sheet.1 sheet.2 rec hrecs (hclean sheet hs)).1 hle
  · intro hgt rec hrec
    obtain ⟨sheet, hsheet, hrecs⟩ := hdecomp rec hrec
    have hs : sheet ∈ wb := List.mem_of_mem_take hsheet
    exact ⟨sheet, hs, (hsheetrec sheet.1 sheet.2 rec hrecs (hclean sheet hs)).2 hgt⟩

/-- Witness for the amended C8 theorem on a single-sheet workbook, whose
record carries no sheet tag. -/
theorem sheet_tag_iff_multisheet_witness :
    (∀ sheet ∈ [("Sheet1", [["H"], ["v"]])], ∀ hcell ∈ (sheet.2.headD ([] : List String)),
      jsToLower (jsTrim hcell) ≠ "_sheet") ∧
    (∀ rec ∈ parseExcelWb [("Sheet1", [["H"], ["v"]])], jsGet rec "_sheet" = none) :=
  ⟨by decide,
    (sheet_tag_iff_multisheet [("Sheet1", [["H"], ["v"]])] (by decide)).1 (by decide)⟩

/-- A well-formed spreadsheet row of the ten-row batch used to test
rejection handling. -/
def c2Row (pid price : String) : List (String × String) :=
  [("productId", pid), ("name", "N"), ("quantity", "1"),
   ("companyName", "C"), ("shopName", "S"), ("price", price)]

/-- A batch of ten spreadsheet rows in which exactly row 5 has a non-numeric
price. -/
def c2Batch : List (List (String × String)) :=
  [c2Row "P1" "10", c2Row "P2" "10", c2Row "P3" "10", c2Row "P4" "10",
   c2Row "P5" "abc", c2Row "P6" "10", c2Row "P7" "10", c2Row "P8" "10",
   c2Row "P9" "10", c2Row "P10" "10"]

/-- C2 does not hold as stated for the spreadsheet flow: in a ten-row batch
where exactly row 5 has a non-numeric price, validation scans every row and
reports exactly the one error, but the upload step then rejects the entire
file, importing none of the ten records instead of nine. -/
theorem spreadsheet_rejection_counterexample :
    (validateProducts c2Batch "f.csv").1 =
      ["f.csv, Row 5: Price must be a number (found: abc)"] ∧
    (processParsedFile c2Batch "f.csv" []).success = 0 ∧
    (processParsedFile c2Batch "f.csv" []).catalog = [] := by
  exact ⟨by decide, by decide, by decide⟩

/-- C2 amended: the nine-valid one-invalid partition with all later records
still processed holds for the document validator: in a ten-record batch
where exactly the fifth record has a rejection-level issue, the valid set
holds the other nine normalized records in order, including records six to
ten, and the invalid set holds exactly the fifth record tagged with row 5. -/
theorem pdf_batch_partition (a0 a1 a2 a3 a4 a5 a6 a7 a8 a9 : PDFRec)
    (filename : String)
    (h0 : pdfIssues a0 = []) (h1 : pdfIssues a1 = []) (h2 : pdfIssues a2 = [])
    (h3 : pdfIssues a3 = []) (h4 : pdfIssues a4 ≠ [])
    (h5 : pdfIssues a5 = []) (h6 : pdfIssues a6 = []) (h7 : pdfIssues a7 = [])
    (h8 : pdfIssues a8 = []) (h9 : pdfIssues a9 = []) :
    (validateSpecificPDFData [a0, a1, a2, a3, a4, a5, a6, a7, a8, a9] filename).1 =
      [normalizePDF a0, normalizePDF a1, normalizePDF a2, normalizePDF a3,
       normalizePDF a5, normalizePDF a6, normalizePDF a7, normalizePDF a8,
       normalizePDF a9] ∧
    (validateSpecificPDFData [a0, a1, a2, a3, a4, a5, a6, a7, a8, a9] filename).1.length = 9 ∧
    (validateSpecificPDFData [a0, a1, a2, a3, a4, a5, a6, a7, a8, a9] filename).2.1 =
      [⟨a4, pdfIssues a4, 5⟩] := by
  have h4len : 0 < (pdfIssues a4).length := List.length_pos.mpr h4
  refine ⟨?_, ?_, ?_⟩ <;>
    simp only [validateSpecificPDFData, validatePDFGo, h0, h1, h2, h3, h5, h6, h7, h8, h9,
      h4len, List.length_nil, gt_iff_lt, lt_self_iff_false, if_false, if_true,
      List.length_cons]

/-- Witness for the amended C2 theorem on a concrete ten-record batch whose
fifth record has an invalid price. -/
theorem pdf_batch_partition_witness :
    (pdfIssues { eCode := some "A", price := some 5 } = [] ∧
      pdfIssues { eCode := some "A", price := some 0 } ≠ []) ∧
    (validateSpecificPDFData
      [{ eCode := some "A", price := some 5 }, { eCode := some "A", price := some 5 },
       { eCode := some "A", price := some 5 }, { eCode := some "A", price := some 5 },
       { eCode := some "A", price := some 0 }, { eCode := some "A", price := some 5 },
       { eCode := some "A", price := some 5 }, { eCode := some "A", price := some 5 },
       { eCode := some "A", price := some 5 }, { eCode := some "A", price := some 5 }]
      "f.pdf").1.length = 9 :=
  ⟨⟨by decide, by decide⟩,
    (pdf_batch_partition { eCode := some "A", price := some 5 }
      { eCode := some "A", price := some 5 } { eCode := some "A", price := some 5 }
      { eCode := some "A", price := some 5 } { eCode := some "A", price := some 0 }
      { eCode := some "A", price := some 5 } { eCode := some "A", price := some 5 }
      { eCode := some "A", price := some 5 } { eCode := some "A", price := some 5 }
      { eCode := some "A", price := some 5 } "f.pdf"
      (by decide) (by decide) (by decide) (by decide) (by decide)
      (by decide) (by decide) (by decide) (by decide) (by decide)).2.1⟩

end SSales
